import Mathlib

/-!
Shallow embedding of `qubes_menu/desktop_file_manager.py`: the
`ApplicationInfo` record, the `DesktopFileManager` cache with its
`load_file` and `remove_file` operations, the eligibility filter and the
command derivation.  The filesystem, the external xdg parser and the
qubes domain registry are modelled as explicit inputs; logging, observer
callbacks and widget detachment are recorded as explicit effect lists so
theorems can speak about them.
-/

/-- A qubes domain (`qubesadmin.vm.QubesVM`), reduced to the two
attributes this module reads: the name (which is also what `str(vm)`
yields) and the icon. -/
structure VM where
  name : String
  icon : String
deriving DecidableEq

/-- String form of an optional VM: Python `str(self.vm)` yields the VM
name, or the string "None" when `self.vm` is `None`. -/
def strOfVm : Option VM → String
  | none => "None"
  | some v => v.name

/-- A parsed `xdg.DesktopEntry`, reduced to the fields this module reads.
String-valued entry fields that may be absent are modelled with "" for
absent, matching the Python truthiness tests such as
`entry.get('X-Qubes-VmName') or None`. -/
structure DesktopEntry where
  name : String
  icon : String
  xQubesVmName : String
  xQubesNonDispvmExec : String
  xQubesAppName : String
  execStr : String
  categories : List String
  hidden : Bool
  onlyShowIn : List String
  notShowIn : List String
deriving DecidableEq

/-- Python `str.split(sep)` with a one-character separator, on the
character list: consecutive separators yield empty segments and the empty
string yields one empty segment. -/
def splitChar (c : Char) : List Char → List (List Char)
  | [] => [[]]
  | a :: rest =>
    match splitChar c rest with
    | [] => [[a]]
    | h :: t => if a = c then [] :: h :: t else (a :: h) :: t

/-- Python `s.split(c)` for a one-character separator `c`. -/
def splitString (c : Char) (s : String) : List String :=
  (splitChar c s.data).map String.mk

/-- Python `s.endswith(sfx)`. -/
def strEndsWith (s sfx : String) : Bool :=
  sfx.data.isSuffixOf s.data

/-- Python `s.startswith(pre)`. -/
def strStartsWith (s pre : String) : Bool :=
  pre.data.isPrefixOf s.data

/-- Python `s[n:]` (string slicing drops `n` characters). -/
def strDrop (s : String) (n : Nat) : String :=
  String.mk (s.data.drop n)

/-- Final path component, as `pathlib.PurePath.name` behaves on the
slash-free-tail paths this module sees (a watched directory joined with a
plain file name). -/
def pathName (p : String) : String :=
  (splitString '/' p).getLastD ""

/-- Modelled from the spec: the reserved ephemeral-capable name marker
(`constants.DISPOSABLE_PREFIX`; the `constants` module is not part of
this repository snapshot).  The spec only requires it to be a fixed
reserved marker string prepended to `logical_name`. -/
def dispMarker : String := "@disp:"

/-- The `ApplicationInfo` record.  `rid` is a creation ticket standing in
for Python object identity; `entries` holds identifiers of the dependent
menu widgets that observers registered on this record. -/
structure ApplicationInfo where
  rid : Nat
  file_path : String
  app_icon : Option String
  vm_icon : Option String
  app_name : Option String
  vm : Option VM
  entry_name : Option String
  exec : List String
  disposable : Bool
  categories : List String
  entries : List Nat
deriving DecidableEq

/-- A freshly constructed `ApplicationInfo(qapp, file_path)`: every data
field starts empty, as in `ApplicationInfo.__init__`. -/
def freshInfo (rid : Nat) (p : String) : ApplicationInfo :=
  ⟨rid, p, none, none, none, none, none, [], false, [], []⟩

/-- Embeds `ApplicationInfo.load_data`: refresh every derived field from
a parsed entry.  `qapp` models the `self.qapp.domains` name lookup, whose
`KeyError` (unknown or absent name) leaves `vm = None`.  The
`update_contents` round over `self.entries` is recorded by the caller as
a refresh effect. -/
def load_data (qapp : String → Option VM) (entry : DesktopEntry)
    (info : ApplicationInfo) : ApplicationInfo :=
  let vm := if entry.xQubesVmName = "" then none else qapp entry.xQubesVmName
  let app_name :=
    match vm with
    | some v =>
      if strStartsWith entry.name (v.name ++ ": ") then
        strDrop entry.name (v.name ++ ": ").length
      else entry.name
    | none => entry.name
  let disposable := entry.xQubesNonDispvmExec != ""
  let entry_name0 :=
    if entry.xQubesAppName = "" then pathName info.file_path
    else entry.xQubesAppName
  let entry_name := if disposable then dispMarker ++ entry_name0 else entry_name0
  { info with
    vm := vm,
    app_name := some app_name,
    vm_icon := vm.map VM.icon,
    app_icon := some entry.icon,
    disposable := disposable,
    entry_name := some entry_name,
    exec := splitString ' ' entry.execStr,
    categories := entry.categories }

/-- Embeds `ApplicationInfo.get_command_for_vm`.  The result is `Except`
because `command[5]` raises an uncaught `IndexError` when the command has
at most five tokens; on success the `Bool` records whether the
unexpected-command warning was logged. -/
def get_command_for_vm (info : ApplicationInfo) (vm : Option VM) :
    Except Unit (Bool × List String) :=
  match vm with
  | none => .ok (false, info.exec)
  | some v =>
    if info.vm = some v then .ok (false, info.exec)
    else
      match info.exec.get? 5 with
      | none => .error ()
      | some t =>
        .ok (t != strOfVm info.vm,
          info.exec.map (fun s => if s = strOfVm info.vm then v.name else s))

/-- Boolean intersection test mirroring `bool(set(a).intersection(b))`. -/
def intersects (a b : List String) : Bool :=
  a.any (fun x => b.contains x)

/-- Embeds `DesktopFileManager._eligibility_check`: hidden wins, then a
non-empty OnlyShowIn list, then a non-empty NotShowIn list, else true. -/
def eligibility_check (envs : List String) (e : DesktopEntry) : Bool :=
  if e.hidden then false
  else if e.onlyShowIn != [] then intersects e.onlyShowIn envs
  else if e.notShowIn != [] then !intersects e.notShowIn envs
  else true

/-- Argument to `load_file` / `remove_file`: Python `Union[str, Path]`.
Paths are plain strings; `Path(s)` keeps the same textual path for the
directory-joined file names this module handles. -/
inductive PathArg where
  | str (s : String)
  | path (p : String)
deriving DecidableEq

/-- The underlying path, after the `Path(path)` normalization. -/
def PathArg.toPath : PathArg → String
  | .str s => s
  | .path p => p

/-- Whether the argument was passed as a `str` (as inotify events are). -/
def PathArg.isStr : PathArg → Bool
  | .str _ => true
  | .path _ => false

/-- What the filesystem and the external xdg parser say about one path:
whether the path exists, its size, and the outcome of
`xdg.DesktopEntry.DesktopEntry(path)`, which raises an exception on
missing or malformed files. -/
structure FileInfo where
  fexists : Bool
  size : Nat
  parse : Except String DesktopEntry

/-- The `DesktopFileManager` state: the `app_entries` cache as an
insertion-ordered association list (Python dict), registered callbacks as
identifiers in registration order, the domain registry, the current
desktop environments, and a counter supplying fresh record identities. -/
structure DesktopFileManager where
  qapp : String → Option VM
  current_environments : List String
  app_entries : List (String × ApplicationInfo)
  callbacks : List Nat
  next_rid : Nat

/-- Observable side effects of one cache operation: whether a warning was
logged, which callbacks ran (with the record they received, in order),
which dependent widgets were told to detach from their parent (the parent
also re-applies its filter), and which widgets had `update_contents`
run. -/
structure Effects where
  warned : Bool
  notified : List (Nat × ApplicationInfo)
  detached : List Nat
  refreshed : List Nat
deriving DecidableEq

/-- No side effects. -/
def Effects.nil : Effects := ⟨false, [], [], []⟩

/-- First association for a key (Python `dict.get`; keys are unique in
reachable states). -/
def lookupEntry : List (String × ApplicationInfo) → String → Option ApplicationInfo
  | [], _ => none
  | kv :: rest, p => if kv.1 = p then some kv.2 else lookupEntry rest p

/-- In-place update of the record stored under a key: Python mutates the
object held by the dict, so the key keeps its position and other entries
are untouched. -/
def updateEntry : List (String × ApplicationInfo) → String →
    (ApplicationInfo → ApplicationInfo) → List (String × ApplicationInfo)
  | [], _, _ => []
  | kv :: rest, p, f =>
    (if kv.1 = p then (kv.1, f kv.2) else kv) :: updateEntry rest p f

/-- Deletion of a key (Python `del self.app_entries[path]`; keys are
unique in reachable states, so dropping every match coincides). -/
def eraseEntry : List (String × ApplicationInfo) → String → List (String × ApplicationInfo)
  | [], _ => []
  | kv :: rest, p =>
    if kv.1 = p then eraseEntry rest p else kv :: eraseEntry rest p

/-- Embeds `DesktopFileManager.remove_file`: for a cached path, each
dependent widget is detached (`parent.remove(child)` followed by
`parent.invalidate_filter()`, recorded per child in `detached`) and the
cache entry is deleted; an unknown path is a no-op. -/
def remove_file (st : DesktopFileManager) (arg : PathArg) :
    DesktopFileManager × Effects :=
  let p := arg.toPath
  match lookupEntry st.app_entries p with
  | none => (st, Effects.nil)
  | some info =>
    ({ st with app_entries := eraseEntry st.app_entries p },
     { Effects.nil with detached := info.entries })

/-- Embeds `DesktopFileManager.load_file`: the `str`-argument existence
and size guard, the `.desktop` suffix guard, the parse-failure and
ineligibility paths into `remove_file`, and the create-versus-refresh
split with callback notification, following the source line by line.
`fs` supplies the filesystem and parser facts per path. -/
def load_file (fs : String → FileInfo) (st : DesktopFileManager)
    (arg : PathArg) : DesktopFileManager × Effects :=
  let p := arg.toPath
  if arg.isStr && (!(fs p).fexists || (fs p).size == 0) then
    (st, Effects.nil)
  else if !strEndsWith (pathName p) ".desktop" then
    (st, Effects.nil)
  else
    match (fs p).parse with
    | .error _ =>
      let r := remove_file st (.path p)
      (r.1, { r.2 with warned := true })
    | .ok entry =>
      if !eligibility_check st.current_environments entry then
        remove_file st (.path p)
      else
        match lookupEntry st.app_entries p with
        | none =>
          let info := load_data st.qapp entry (freshInfo st.next_rid p)
          ({ st with
              app_entries := st.app_entries ++ [(p, info)],
              next_rid := st.next_rid + 1 },
           { Effects.nil with
              notified := st.callbacks.map (fun c => (c, info)),
              refreshed := info.entries })
        | some info =>
          let info' := load_data st.qapp entry info
          ({ st with app_entries := updateEntry st.app_entries p (fun _ => info') },
           { Effects.nil with refreshed := info'.entries })

/-- Embeds `DesktopFileManager.register_callback`: append the callback
and replay every cached record to it once. -/
def register_callback (st : DesktopFileManager) (c : Nat) :
    DesktopFileManager × Effects :=
  ({ st with callbacks := st.callbacks ++ [c] },
   { Effects.nil with notified := st.app_entries.map (fun kv => (c, kv.2)) })

/-- Embeds `DesktopFileManager.get_app_infos` (the record iterator): all
cached records in insertion order. -/
def get_app_infos (st : DesktopFileManager) : List ApplicationInfo :=
  st.app_entries.map Prod.snd

/-- All cache keys name `.desktop` files. -/
def keysAreDesktop (l : List (String × ApplicationInfo)) : Prop :=
  ∀ kv ∈ l, strEndsWith (pathName kv.1) ".desktop" = true

/-- Concrete domain registry for the witnesses: one qube named "work". -/
def qapp0 : String → Option VM :=
  fun n => if n = "work" then some ⟨"work", "appvm-blue"⟩ else none

/-- Concrete parsed entry used by the witnesses. -/
def sampleEntry : DesktopEntry :=
  ⟨"Files", "system-file-manager", "work", "", "files", "qvm-run -q -a work files", ["X-Qubes-VM"], false, [], []⟩

/-- Empty manager with three registered callbacks, environment tag "A". -/
def st0 : DesktopFileManager :=
  ⟨qapp0, ["A"], [], [0, 1, 2], 0⟩

/-- Filesystem in which every path exists, is non-empty and parses to
`sampleEntry`. -/
def fsOk : String → FileInfo :=
  fun _ => ⟨true, 120, .ok sampleEntry⟩

/-- Filesystem in which no path exists and parsing raises. -/
def fsGone : String → FileInfo :=
  fun _ => ⟨false, 0, .error "File not found"⟩

/-- The disposable template qube of the C1 example. -/
def tmplVm : VM := ⟨"tmpl", "red"⟩

/-- The freshly minted child dispvm of the C1 example. -/
def childVm : VM := ⟨"child", "red"⟩

/-- Record from the C1 example: five exec tokens, owning context "tmpl". -/
def c1Info : ApplicationInfo :=
  ⟨7, "tmpl.desktop", none, none, some "app", some tmplVm, some "app",
    ["run", "--ctx", "tmpl", "-e", "cmd"], false, [], []⟩

/-- A record with the real seven-token command layout, owning context
"tmpl" at index 5. -/
def c1LongInfo : ApplicationInfo :=
  ⟨8, "tmpl.desktop", none, none, some "app", some tmplVm, some "app",
    ["qvm-run", "-q", "-a", "--service", "--", "tmpl", "app"], false, [], []⟩

/-- Record with two dependent widgets (ids 10 and 11), cached under
"a.desktop". -/
def depInfo : ApplicationInfo :=
  ⟨3, "a.desktop", none, none, some "Files", none, some "files", ["x"],
    false, [], [10, 11]⟩

/-- Manager whose cache already holds `depInfo` under "a.desktop". -/
def st1 : DesktopFileManager :=
  ⟨qapp0, ["A"], [("a.desktop", depInfo)], [0, 1, 2], 4⟩

/-- Filesystem in which every path exists and is non-empty but the xdg
parser raises. -/
def fsCorrupt : String → FileInfo :=
  fun _ => ⟨true, 50, .error "ParsingError"⟩

/-- Entry that is hidden. -/
def hiddenEntry : DesktopEntry :=
  ⟨"n", "", "", "", "", "", [], true, ["A"], []⟩

/-- Entry declaring both OnlyShowIn and NotShowIn as the singleton list
containing "A": the C4 precedence example. -/
def bothShowEntry : DesktopEntry :=
  ⟨"n", "", "", "", "", "", [], false, ["A"], ["A"]⟩

/-- Non-disposable entry whose explicit name override already carries
the ephemeral marker. -/
def c8Entry : DesktopEntry :=
  ⟨"X", "", "", "", dispMarker ++ "x", "x", [], false, [], []⟩

/-- Disposable entry (non-empty X-Qubes-NonDispvmExec field). -/
def c8DispEntry : DesktopEntry :=
  ⟨"X", "", "", "keep", "files", "x", [], false, [], []⟩

/-- Looking a key up after an in-place update maps the stored record. -/
theorem lookupEntry_updateEntry (l : List (String × ApplicationInfo))
    (p : String) (f : ApplicationInfo → ApplicationInfo) :
    lookupEntry (updateEntry l p f) p = (lookupEntry l p).map f := by
  induction l with
  | nil => rfl
  | cons kv rest ih =>
    by_cases h : kv.1 = p
    · simp [updateEntry, lookupEntry, h]
    · simp [updateEntry, lookupEntry, h, ih]

/-- A deleted key no longer resolves. -/
theorem lookupEntry_eraseEntry_self (l : List (String × ApplicationInfo))
    (p : String) : lookupEntry (eraseEntry l p) p = none := by
  induction l with
  | nil => rfl
  | cons kv rest ih =>
    by_cases h : kv.1 = p
    · simp [eraseEntry, h, ih]
    · simp [eraseEntry, lookupEntry, h, ih]

/-- Deleting one key leaves the other keys' resolutions unchanged. -/
theorem lookupEntry_eraseEntry_ne (l : List (String × ApplicationInfo))
    (p q : String) (h : q ≠ p) :
    lookupEntry (eraseEntry l p) q = lookupEntry l q := by
  induction l with
  | nil => rfl
  | cons kv rest ih =>
    by_cases hk : kv.1 = p
    · simp [eraseEntry, hk, lookupEntry, ih, Ne.symm h]
    · by_cases hq : kv.1 = q
      · simp [eraseEntry, hk, lookupEntry, hq, h]
      · simp [eraseEntry, hk, lookupEntry, hq, ih]

/-- A successful lookup produces an actual member of the list. -/
theorem lookupEntry_mem (l : List (String × ApplicationInfo)) (p : String)
    (r : ApplicationInfo) (h : lookupEntry l p = some r) : (p, r) ∈ l := by
  induction l with
  | nil => exact absurd h (by simp [lookupEntry])
  | cons kv rest ih =>
    by_cases hk : kv.1 = p
    · rw [lookupEntry, if_pos hk] at h
      have h2 := Option.some.inj h
      have hkv : (p, r) = kv := by
        obtain ⟨a, b⟩ := kv
        simp only at hk h2
        rw [hk, h2]
      rw [hkv]
      exact List.mem_cons_self _ _
    · rw [lookupEntry, if_neg hk] at h
      exact List.mem_cons_of_mem _ (ih h)

/-- Members of an erased list come from the original and avoid the
deleted key. -/
theorem mem_eraseEntry (l : List (String × ApplicationInfo)) (p : String)
    (kv : String × ApplicationInfo) (h : kv ∈ eraseEntry l p) :
    kv ∈ l ∧ kv.1 ≠ p := by
  induction l with
  | nil => cases h
  | cons hd rest ih =>
    by_cases hk : hd.1 = p
    · rw [eraseEntry, if_pos hk] at h
      obtain ⟨h1, h2⟩ := ih h
      exact ⟨List.mem_cons_of_mem _ h1, h2⟩
    · rw [eraseEntry, if_neg hk] at h
      rcases List.mem_cons.1 h with h1 | h1
      · rw [h1]
        exact ⟨List.mem_cons_self _ _, hk⟩
      · obtain ⟨h2, h3⟩ := ih h1
        exact ⟨List.mem_cons_of_mem _ h2, h3⟩

/-- Every member of an updated list shares its key with an original
member. -/
theorem mem_updateEntry_key (l : List (String × ApplicationInfo))
    (p : String) (f : ApplicationInfo → ApplicationInfo)
    (kv : String × ApplicationInfo) (h : kv ∈ updateEntry l p f) :
    ∃ kv' ∈ l, kv.1 = kv'.1 := by
  induction l with
  | nil => cases h
  | cons hd rest ih =>
    simp only [updateEntry] at h
    rcases List.mem_cons.1 h with h1 | h1
    · by_cases hk : hd.1 = p
      · rw [if_pos hk] at h1
        exact ⟨hd, List.mem_cons_self _ _, by rw [h1]⟩
      · rw [if_neg hk] at h1
        exact ⟨hd, List.mem_cons_self _ _, by rw [h1]⟩
    · obtain ⟨kv', hm, hkk⟩ := ih h1
      exact ⟨kv', List.mem_cons_of_mem _ hm, hkk⟩

/-- Effects of `remove_file` never include callback runs or warnings. -/
theorem remove_file_effects (st : DesktopFileManager) (arg : PathArg) :
    (remove_file st arg).2.notified = [] ∧
    (remove_file st arg).2.warned = false := by
  unfold remove_file
  cases h : lookupEntry st.app_entries arg.toPath <;> simp [h, Effects.nil]

/-- Once the transient-state and suffix guards pass, `load_file` acts as
its parse / eligibility / create-or-refresh tail on the resolved path. -/
theorem load_file_guard_pass (fs : String → FileInfo)
    (st : DesktopFileManager) (arg : PathArg) (p : String)
    (hp : arg.toPath = p)
    (hguard : arg.isStr = false ∨ (fs p).fexists = true ∧ (fs p).size ≠ 0)
    (hsfx : strEndsWith (pathName p) ".desktop" = true) :
    load_file fs st arg =
      match (fs p).parse with
      | .error _ =>
        ((remove_file st (.path p)).1,
          { (remove_file st (.path p)).2 with warned := true })
      | .ok entry =>
        if !eligibility_check st.current_environments entry then
          remove_file st (.path p)
        else
          match lookupEntry st.app_entries p with
          | none =>
            let info := load_data st.qapp entry (freshInfo st.next_rid p)
            ({ st with
                app_entries := st.app_entries ++ [(p, info)],
                next_rid := st.next_rid + 1 },
             { Effects.nil with
                notified := st.callbacks.map (fun c => (c, info)),
                refreshed := info.entries })
          | some info =>
            let info' := load_data st.qapp entry info
            ({ st with app_entries := updateEntry st.app_entries p (fun _ => info') },
             { Effects.nil with refreshed := info'.entries }) := by
  subst hp
  cases arg with
  | str s =>
    rcases hguard with hg | ⟨hfex, hsize⟩
    · simp [PathArg.isStr] at hg
    · simp only [PathArg.toPath] at hfex hsize hsfx ⊢
      simp [load_file, PathArg.isStr, PathArg.toPath, hfex, hsize, hsfx]
  | path q =>
    simp only [PathArg.toPath] at hsfx ⊢
    simp [load_file, PathArg.isStr, PathArg.toPath, hsfx]

/-- Erasure preserves the `.desktop`-key invariant. -/
theorem keysAreDesktop_eraseEntry (l : List (String × ApplicationInfo))
    (p : String) (h : keysAreDesktop l) : keysAreDesktop (eraseEntry l p) :=
  fun kv hm => h kv (mem_eraseEntry l p kv hm).1

/-- In-place update preserves the `.desktop`-key invariant. -/
theorem keysAreDesktop_updateEntry (l : List (String × ApplicationInfo))
    (p : String) (f : ApplicationInfo → ApplicationInfo)
    (h : keysAreDesktop l) : keysAreDesktop (updateEntry l p f) := by
  intro kv hm
  obtain ⟨kv', hm', hk⟩ := mem_updateEntry_key l p f kv hm
  rw [hk]
  exact h kv' hm'

/-- The `remove_file` operation preserves the `.desktop`-key invariant. -/
theorem keysAreDesktop_remove_file (st : DesktopFileManager) (arg : PathArg)
    (h : keysAreDesktop st.app_entries) :
    keysAreDesktop (remove_file st arg).1.app_entries := by
  unfold remove_file
  cases hx : lookupEntry st.app_entries arg.toPath with
  | none => simpa [hx] using h
  | some info =>
    simp only [hx]
    exact keysAreDesktop_eraseEntry _ _ h

/-- C1 counterexample: the claim's own example record, with exec tokens
["run", "--ctx", "tmpl", "-e", "cmd"] and owning context "tmpl", requested
for override "child", does not yield the substituted token list: the
fixed-position access `command[5]` raises IndexError (the five-token
command has no index 5), so the operation fails instead of succeeding
with at most a warning. -/
theorem c1_counterexample :
    get_command_for_vm c1Info (some childVm) = Except.error () := by
  rfl

/-- C1 amended: for a record whose resolved owning context differs from
the override, `get_command_for_vm` returns a copy of `exec_tokens` with
every token equal to the string form of the owning context replaced by
the string form of the override, logging a warning exactly when the token
at the assumed fixed position 5 is not the owning context's string form —
provided that position exists; when `exec_tokens` has five or fewer
tokens the access at position 5 raises IndexError and the operation
fails. -/
theorem c1_substitution (info : ApplicationInfo) (v : VM)
    (hvm : info.vm ≠ some v) :
    (∀ t, info.exec.get? 5 = some t →
      get_command_for_vm info (some v) =
        Except.ok (t != strOfVm info.vm,
          info.exec.map (fun s => if s = strOfVm info.vm then v.name else s))) ∧
    (info.exec.get? 5 = none →
      get_command_for_vm info (some v) = Except.error ()) := by
  constructor
  · intro t h5
    simp only [List.get?_eq_getElem?] at h5
    simp [get_command_for_vm, hvm, h5]
  · intro h5
    simp only [List.get?_eq_getElem?] at h5
    simp [get_command_for_vm, hvm, h5]

/-- C1 witness: a realistic seven-token command with owning context
"tmpl" at position 5 is substituted for override "child" without warning. -/
theorem c1_substitution_witness :
    get_command_for_vm c1LongInfo (some childVm) =
      Except.ok (false,
        ["qvm-run", "-q", "-a", "--service", "--", "child", "app"]) := by
  have h := (c1_substitution c1LongInfo childVm (by decide)).1 "tmpl" rfl
  exact h

/-- C4: the eligibility filter decides by the first matching rule — a
hidden entry is ineligible; otherwise a non-empty OnlyShowIn set decides
by intersection with the current environments, regardless of NotShowIn;
in particular the entry with OnlyShowIn and NotShowIn both containing
exactly "A" is eligible under current environments ["A"]. -/
theorem c4_eligibility_first_match :
    (∀ envs e, e.hidden = true → eligibility_check envs e = false) ∧
    (∀ envs e, e.hidden = false → e.onlyShowIn ≠ [] →
      eligibility_check envs e = intersects e.onlyShowIn envs) ∧
    eligibility_check ["A"] bothShowEntry = true := by
  refine ⟨?_, ?_, by rfl⟩
  · intro envs e h
    simp [eligibility_check, h]
  · intro envs e h1 h2
    simp [eligibility_check, h1, h2]

/-- C4 witness: the first-match rules evaluated at concrete entries — the
hidden entry is rejected, and the OnlyShowIn intersection decides the
precedence example. -/
theorem c4_eligibility_first_match_witness :
    eligibility_check ["A"] hiddenEntry = false ∧
    eligibility_check ["A"] bothShowEntry = intersects bothShowEntry.onlyShowIn ["A"] ∧
    eligibility_check ["A"] bothShowEntry = true :=
  ⟨c4_eligibility_first_match.1 ["A"] hiddenEntry rfl,
   c4_eligibility_first_match.2.1 ["A"] bothShowEntry rfl (by decide),
   c4_eligibility_first_match.2.2⟩

/-- C6: a filesystem event delivering a string path that does not exist
or names a zero-length file makes `load_file` a silent no-op — the state
(hence the cache) is unchanged and no effect occurs; the operation is a
total function, so nothing is raised. -/
theorem c6_transient_event_noop (fs : String → FileInfo)
    (st : DesktopFileManager) (s : String)
    (h : (fs s).fexists = false ∨ (fs s).size = 0) :
    load_file fs st (.str s) = (st, Effects.nil) := by
  rcases h with h | h <;>
    simp [load_file, PathArg.isStr, PathArg.toPath, h]

/-- C6 witness: loading a vanished path by event leaves the empty manager
untouched. -/
theorem c6_transient_event_noop_witness :
    load_file fsGone st0 (.str "gone.desktop") = (st0, Effects.nil) :=
  c6_transient_event_noop fsGone st0 "gone.desktop" (Or.inl rfl)

/-- C8 counterexample: a non-disposable entry whose explicit name
override already carries the reserved marker loads to a record with
`disposable = false` whose `entry_name` nevertheless starts with the
marker, refuting "never starts with that marker when is_ephemeral_capable
is false". -/
theorem c8_counterexample :
    (load_data qapp0 c8Entry (freshInfo 0 "x.desktop")).disposable = false ∧
    (load_data qapp0 c8Entry (freshInfo 0 "x.desktop")).entry_name =
      some (dispMarker ++ "x") := by
  constructor <;> rfl

/-- C8 amended: after `load_data`, a disposable record's `entry_name`
always starts with the reserved marker; a non-disposable record's
`entry_name` is exactly the raw override or file base name with no
marker prepended (so it starts with the marker only when that raw name
itself does). -/
theorem c8_marker (qapp : String → Option VM) (entry : DesktopEntry)
    (info : ApplicationInfo) :
    ((load_data qapp entry info).disposable = true →
      ∃ b, (load_data qapp entry info).entry_name = some (dispMarker ++ b)) ∧
    ((load_data qapp entry info).disposable = false →
      (load_data qapp entry info).entry_name =
        some (if entry.xQubesAppName = "" then pathName info.file_path
              else entry.xQubesAppName)) := by
  have hd : (load_data qapp entry info).disposable =
      (entry.xQubesNonDispvmExec != "") := by
    simp [load_data]
  have hn : (load_data qapp entry info).entry_name =
      some (if (entry.xQubesNonDispvmExec != "") then
              dispMarker ++ (if entry.xQubesAppName = "" then
                pathName info.file_path else entry.xQubesAppName)
            else (if entry.xQubesAppName = "" then
                pathName info.file_path else entry.xQubesAppName)) := by
    simp [load_data]
  constructor
  · intro h
    rw [hd] at h
    rw [hn, if_pos h]
    exact ⟨_, rfl⟩
  · intro h
    rw [hd] at h
    rw [hn, if_neg (by simp [h])]

/-- C8 witness: loading the disposable entry yields an `entry_name`
carrying the marker. -/
theorem c8_marker_witness :
    ∃ b, (load_data qapp0 c8DispEntry (freshInfo 0 "x.desktop")).entry_name =
      some (dispMarker ++ b) :=
  (c8_marker qapp0 c8DispEntry (freshInfo 0 "x.desktop")).1 rfl

/-- C7: when the parser fails on a path that passes the guards,
`load_file` logs a warning, performs `remove_file` on the path (deleting
any cached record and detaching its dependents) and returns; the
operation is a total function whose effects carry no callback run, so no
exception or error value reaches the caller. -/
theorem c7_parse_failure_removes (fs : String → FileInfo)
    (st : DesktopFileManager) (p : String) (arg : PathArg) (e : String)
    (hp : arg.toPath = p)
    (hguard : arg.isStr = false ∨ (fs p).fexists = true ∧ (fs p).size ≠ 0)
    (hsfx : strEndsWith (pathName p) ".desktop" = true)
    (hparse : (fs p).parse = .error e) :
    load_file fs st arg =
      ((remove_file st (.path p)).1,
        { (remove_file st (.path p)).2 with warned := true }) ∧
    (load_file fs st arg).2.notified = [] := by
  have hred := load_file_guard_pass fs st arg p hp hguard hsfx
  rw [hparse] at hred
  refine ⟨hred, ?_⟩
  rw [hred]
  exact (remove_file_effects st (.path p)).1

/-- C7 witness: loading "a.desktop" over a cached record while the
parser raises removes the record and warns, firing no callback. -/
theorem c7_parse_failure_removes_witness :
    load_file fsCorrupt st1 (.str "a.desktop") =
      ((remove_file st1 (.path "a.desktop")).1,
        { (remove_file st1 (.path "a.desktop")).2 with warned := true }) ∧
    (load_file fsCorrupt st1 (.str "a.desktop")).2.notified = [] :=
  c7_parse_failure_removes fsCorrupt st1 "a.desktop" (.str "a.desktop")
    "ParsingError" rfl (Or.inr ⟨rfl, by decide⟩) rfl rfl

/-- C9: the transient-state check of `load_file` runs only for string
arguments: for a Path-typed argument naming a file that does not exist
(whose parse therefore raises, as during the initial directory scan),
the call takes the parse-failure branch — warning plus `remove_file` —
whereas the same path as a string argument is a silent no-op. -/
theorem c9_path_skips_transient_check (fs : String → FileInfo)
    (st : DesktopFileManager) (p : String) (e : String)
    (hnoexist : (fs p).fexists = false)
    (hparse : (fs p).parse = .error e)
    (hsfx : strEndsWith (pathName p) ".desktop" = true) :
    load_file fs st (.path p) =
      ((remove_file st (.path p)).1,
        { (remove_file st (.path p)).2 with warned := true }) ∧
    load_file fs st (.str p) = (st, Effects.nil) := by
  constructor
  · have hred := load_file_guard_pass fs st (.path p) p rfl (Or.inl rfl) hsfx
    rw [hparse] at hred
    exact hred
  · simp [load_file, PathArg.isStr, PathArg.toPath, hnoexist]

/-- C9 witness: the vanished path "gone.desktop", loaded as a Path,
warns and removes; loaded as a string, it is a silent no-op. -/
theorem c9_path_skips_transient_check_witness :
    load_file fsGone st0 (.path "gone.desktop") =
      ((remove_file st0 (.path "gone.desktop")).1,
        { (remove_file st0 (.path "gone.desktop")).2 with warned := true }) ∧
    load_file fsGone st0 (.str "gone.desktop") = (st0, Effects.nil) :=
  c9_path_skips_transient_check fsGone st0 "gone.desktop" "File not found"
    rfl rfl rfl

/-- C2: a load that creates a record for a previously unknown eligible
path runs every callback registered at that moment exactly once with the
new record, in registration order; any load that finds an existing record
for the path runs no callback. -/
theorem c2_callbacks_on_create (fs : String → FileInfo)
    (st : DesktopFileManager) (p : String) (arg : PathArg)
    (entry : DesktopEntry)
    (hp : arg.toPath = p)
    (hguard : arg.isStr = false ∨ (fs p).fexists = true ∧ (fs p).size ≠ 0)
    (hsfx : strEndsWith (pathName p) ".desktop" = true)
    (hparse : (fs p).parse = .ok entry)
    (helig : eligibility_check st.current_environments entry = true) :
    (lookupEntry st.app_entries p = none →
      (load_file fs st arg).2.notified =
        st.callbacks.map
          (fun c => (c, load_data st.qapp entry (freshInfo st.next_rid p)))) ∧
    (∀ r, lookupEntry st.app_entries p = some r →
      (load_file fs st arg).2.notified = []) := by
  have hred := load_file_guard_pass fs st arg p hp hguard hsfx
  rw [hparse] at hred
  simp only [helig, Bool.not_true, Bool.false_eq_true, if_false] at hred
  constructor
  · intro h
    rw [h] at hred
    rw [hred]
  · intro r h
    rw [h] at hred
    rw [hred]
    exact rfl

/-- C2 witness: with three callbacks registered and an empty cache,
loading a new valid path notifies callbacks 0, 1, 2 in order, each with
the new record. -/
theorem c2_callbacks_on_create_witness :
    (load_file fsOk st0 (.str "a.desktop")).2.notified =
      st0.callbacks.map
        (fun c => (c, load_data st0.qapp sampleEntry
          (freshInfo st0.next_rid "a.desktop"))) :=
  (c2_callbacks_on_create fsOk st0 "a.desktop" (.str "a.desktop")
    sampleEntry rfl (Or.inr ⟨rfl, by decide⟩) rfl rfl rfl).1 rfl

/-- C3: reloading a cached path with eligible content leaves the cache
mapping the path to the in-place refresh of the same record — same
identity ticket, same dependent back-references — while the derived
fields reflect the newly parsed content. -/
theorem c3_identity_preserved (fs : String → FileInfo)
    (st : DesktopFileManager) (p : String) (arg : PathArg)
    (entry : DesktopEntry) (r : ApplicationInfo)
    (hp : arg.toPath = p)
    (hguard : arg.isStr = false ∨ (fs p).fexists = true ∧ (fs p).size ≠ 0)
    (hsfx : strEndsWith (pathName p) ".desktop" = true)
    (hparse : (fs p).parse = .ok entry)
    (helig : eligibility_check st.current_environments entry = true)
    (hsome : lookupEntry st.app_entries p = some r) :
    lookupEntry (load_file fs st arg).1.app_entries p =
      some (load_data st.qapp entry r) ∧
    (load_data st.qapp entry r).rid = r.rid ∧
    (load_data st.qapp entry r).entries = r.entries ∧
    (load_data st.qapp entry r).exec = splitString ' ' entry.execStr ∧
    (load_data st.qapp entry r).categories = entry.categories ∧
    (load_data st.qapp entry r).app_icon = some entry.icon := by
  have hred := load_file_guard_pass fs st arg p hp hguard hsfx
  rw [hparse] at hred
  simp only [helig, Bool.not_true, Bool.false_eq_true, if_false] at hred
  rw [hsome] at hred
  refine ⟨?_, by simp [load_data], by simp [load_data], by simp [load_data],
    by simp [load_data], by simp [load_data]⟩
  rw [hred]
  simp [lookupEntry_updateEntry, hsome]

/-- C3 witness: reloading the cached "a.desktop" record keeps its
identity ticket 3 and its two dependent back-references while refreshing
the derived fields from `sampleEntry`. -/
theorem c3_identity_preserved_witness :
    lookupEntry (load_file fsOk st1 (.str "a.desktop")).1.app_entries "a.desktop" =
      some (load_data st1.qapp sampleEntry depInfo) ∧
    (load_data st1.qapp sampleEntry depInfo).rid = depInfo.rid ∧
    (load_data st1.qapp sampleEntry depInfo).entries = depInfo.entries ∧
    (load_data st1.qapp sampleEntry depInfo).exec =
      splitString ' ' sampleEntry.execStr ∧
    (load_data st1.qapp sampleEntry depInfo).categories =
      sampleEntry.categories ∧
    (load_data st1.qapp sampleEntry depInfo).app_icon =
      some sampleEntry.icon :=
  c3_identity_preserved fsOk st1 "a.desktop" (.str "a.desktop") sampleEntry
    depInfo rfl (Or.inr ⟨rfl, by decide⟩) rfl rfl rfl rfl

/-- C5: removing a cached path instructs every dependent back-reference
to detach (the parent also re-applies its filter), runs no observer
callback, and deletes the record so the path no longer resolves and the
record is absent from the record iterator; removing an unknown path is a
no-op. -/
theorem c5_remove_cascade (st : DesktopFileManager) (arg : PathArg)
    (p : String)
    (hp : arg.toPath = p)
    (hfp : ∀ kv ∈ st.app_entries, kv.2.file_path = kv.1) :
    (∀ r, lookupEntry st.app_entries p = some r →
      (remove_file st arg).2.detached = r.entries ∧
      (remove_file st arg).2.notified = [] ∧
      lookupEntry (remove_file st arg).1.app_entries p = none ∧
      r ∉ get_app_infos (remove_file st arg).1) ∧
    (lookupEntry st.app_entries p = none →
      remove_file st arg = (st, Effects.nil)) := by
  subst hp
  constructor
  · intro r h
    have hrm : remove_file st arg =
        ({ st with app_entries := eraseEntry st.app_entries arg.toPath },
         { Effects.nil with detached := r.entries }) := by
      simp [remove_file, h]
    refine ⟨by rw [hrm], by rw [hrm]; rfl, ?_, ?_⟩
    · rw [hrm]
      exact lookupEntry_eraseEntry_self _ _
    · rw [hrm]
      intro hmem
      obtain ⟨kv, hkv, hsnd⟩ := List.mem_map.1 hmem
      obtain ⟨hin, hne⟩ := mem_eraseEntry _ _ _ hkv
      have h1 : kv.2.file_path = kv.1 := hfp kv hin
      have h2 : r.file_path = arg.toPath :=
        hfp (arg.toPath, r) (lookupEntry_mem _ _ _ h)
      apply hne
      rw [← h1, hsnd, h2]
  · intro h
    simp [remove_file, h]

/-- C5 witness: removing "a.desktop" detaches dependent widgets 10 and
11, fires no callback, and leaves the record unreachable; removing an
unknown path is a no-op. -/
theorem c5_remove_cascade_witness :
    (remove_file st1 (.str "a.desktop")).2.detached = depInfo.entries ∧
    (remove_file st1 (.str "a.desktop")).2.notified = [] ∧
    lookupEntry (remove_file st1 (.str "a.desktop")).1.app_entries "a.desktop" = none ∧
    depInfo ∉ get_app_infos (remove_file st1 (.str "a.desktop")).1 :=
  (c5_remove_cascade st1 (.str "a.desktop") "a.desktop" rfl (by decide)).1
    depInfo rfl

/-- C10: both operations resolve a string argument to the same normalized
path before touching the cache, so every cache key names a `.desktop`
file (loads only insert suffix-checked paths; removals only delete), and
a record reachable under a string-loaded path is found and deleted by a
removal invoked with the equal string. -/
theorem c10_keys_normalized (fs : String → FileInfo) :
    (∀ st arg, keysAreDesktop st.app_entries →
      keysAreDesktop (load_file fs st arg).1.app_entries) ∧
    (∀ st arg, keysAreDesktop st.app_entries →
      keysAreDesktop (remove_file st arg).1.app_entries) ∧
    (∀ st s r,
      lookupEntry (load_file fs st (.str s)).1.app_entries s = some r →
      (remove_file (load_file fs st (.str s)).1 (.str s)).2.detached =
        r.entries ∧
      lookupEntry
        (remove_file (load_file fs st (.str s)).1 (.str s)).1.app_entries
        s = none) := by
  refine ⟨?_, ?_, ?_⟩
  · intro st arg hK
    simp only [load_file]
    split
    · exact hK
    · split
      · exact hK
      · rename_i hsfx
        split
        · exact keysAreDesktop_remove_file st (.path arg.toPath) hK
        · rename_i entry heq
          split
          · exact keysAreDesktop_remove_file st (.path arg.toPath) hK
          · split
            · intro kv hm
              rcases List.mem_append.1 hm with h1 | h1
              · exact hK kv h1
              · have hkv : kv =
                    (arg.toPath,
                      load_data st.qapp entry (freshInfo st.next_rid arg.toPath)) := by
                  simpa using h1
                rw [hkv]
                simpa using hsfx
            · exact keysAreDesktop_updateEntry _ _ _ hK
  · intro st arg hK
    exact keysAreDesktop_remove_file st arg hK
  · intro st s r h
    constructor
    · simp [remove_file, PathArg.toPath, h, Effects.nil]
    · simp only [remove_file, PathArg.toPath, h]
      exact lookupEntry_eraseEntry_self _ _

/-- C10 witness: keys stay `.desktop` through a load over `st1`, and the
record refreshed under the string-loaded key "a.desktop" is found —
detaching widgets 10 and 11 — and deleted by the string removal. -/
theorem c10_keys_normalized_witness :
    keysAreDesktop (load_file fsOk st1 (.str "a.desktop")).1.app_entries ∧
    ((remove_file (load_file fsOk st1 (.str "a.desktop")).1
        (.str "a.desktop")).2.detached =
      (load_data qapp0 sampleEntry depInfo).entries ∧
    lookupEntry
      (remove_file (load_file fsOk st1 (.str "a.desktop")).1
        (.str "a.desktop")).1.app_entries "a.desktop" = none) :=
  ⟨(c10_keys_normalized fsOk).1 st1 (.str "a.desktop")
     (by unfold keysAreDesktop; decide),
   (c10_keys_normalized fsOk).2.2 st1 "a.desktop"
     (load_data qapp0 sampleEntry depInfo) (by rfl)⟩
